import Mathlib

/-!
Verification of the dataset-processing engine in src/DataFrameProcessor.py.

The embedding models a pandas DataFrame as a list of column names plus a
list of rows, where a row is an association list from column name to cell
value.  Cell values are an inductive type covering the shapes the program
manipulates: null sentinels (None/NaN/NaT), integers, strings, and
normalized calendar dates.  Dates are represented as proleptic Gregorian
epoch-day numbers (1970-01-01 is day 0), which matches the arithmetic of
pandas Timestamp values: subtracting two Timestamps and taking .days is
exactly subtraction of epoch-day numbers.
-/

deriving instance DecidableEq for Except

/-- A cell value of the modelled DataFrame. -/
inductive Value where
  | null : Value
  | int : Int → Value
  | str : String → Value
  | date : Int → Value
deriving DecidableEq, Repr

/-- The error outcomes of the modelled operations.  formatError models the
pandas parse failure of to_datetime (the FormatError of the spec),
contractError models the ValueError raised by assigning a wrong-length
sequence to a DataFrame column (the ContractError of the spec), and
valueError models the duplicate-column ValueError of reset_index. -/
inductive Err where
  | formatError : Err
  | contractError : Err
  | valueError : Err
deriving DecidableEq, Repr

/-- A predicate value of filter_by_specified_columns: either a scalar that
is compared by equality, or a Python list compared by membership. -/
inductive FilterVal where
  | scalar : Value → FilterVal
  | coll : List Value → FilterVal
deriving DecidableEq, Repr

/-- A row: an association list from column name to cell value. -/
abbrev Row := List (String × Value)

/-- A DataFrame: its column names in order, and its rows. -/
structure PTable where
  cols : List String
  rows : List Row
deriving DecidableEq, Repr

/-- The state of a DataFrameProcessor object (src/DataFrameProcessor.py,
lines 16-29): configured column roles, the owned table, the filterable
columns, and the derived date bounds. -/
structure DFP where
  target : String
  date_column : String
  label : String
  graph : String
  withGraph : Bool
  df : PTable
  filter_columns : List String
  min_date : Option Int
  max_date : Option Int
deriving DecidableEq, Repr

/-- Reading a cell: the first binding of the column in the row.  Missing
columns read as the null sentinel. -/
def rget (r : Row) (c : String) : Value :=
  match r with
  | [] => Value.null
  | p :: ps => if p.1 = c then p.2 else rget ps c

/-- Whether a row has a binding for a column. -/
def hasCol (r : Row) (c : String) : Bool :=
  match r with
  | [] => false
  | p :: ps => if p.1 = c then true else hasCol ps c

/-- Column assignment df[c] = v on one row: overwrite the existing
binding, or append a new column at the end, as pandas does. -/
def setCol (r : Row) (c : String) (v : Value) : Row :=
  if hasCol r c then r.map (fun p => if p.1 = c then (c, v) else p)
  else r ++ [(c, v)]

/-- Appending a column name to a schema unless it is already present,
as pandas column assignment does. -/
def addColIfNew (cols : List String) (c : String) : List String :=
  if c ∈ cols then cols else cols ++ [c]

/-- The last n elements of a list, as DataFrame.tail(n). -/
def takeLast (n : Nat) (l : List α) : List α :=
  l.drop (l.length - n)

/-- Leap years of the Gregorian calendar. -/
def isLeap (y : Int) : Bool :=
  (y % 4 == 0 && y % 100 != 0) || y % 400 == 0

/-- Number of days of a month. -/
def daysInMonth (y m : Int) : Int :=
  if m = 2 then (if isLeap y then 29 else 28)
  else if m = 4 ∨ m = 6 ∨ m = 9 ∨ m = 11 then 30 else 31

/-- Epoch-day number of a calendar date (civil-from-days algorithm of the
proleptic Gregorian calendar); 1970-01-01 maps to 0.  All intermediate
divisions act on nonnegative operands. -/
def daysFromCivil (y m d : Int) : Int :=
  let y1 := if m ≤ 2 then y - 1 else y
  let era := Int.fdiv y1 400
  let yoe := y1 - era * 400
  let mp := (m + 9) % 12
  let doy := (153 * mp + 2) / 5 + d - 1
  let doe := yoe * 365 + yoe / 4 - yoe / 100 + doy
  era * 146097 + doe - 719468

/-- Calendar date (year, month, day) of an epoch-day number; the inverse
of daysFromCivil. -/
def civilFromDays (z0 : Int) : Int × Int × Int :=
  let z := z0 + 719468
  let era := Int.fdiv z 146097
  let doe := z - era * 146097
  let yoe := (doe - doe / 1460 + doe / 36524 - doe / 146096) / 365
  let y := yoe + era * 400
  let doy := doe - (365 * yoe + yoe / 4 - yoe / 100)
  let mp := (5 * doy + 2) / 153
  let d := doy - (153 * mp + 2) / 5 + 1
  let m := if mp < 10 then mp + 3 else mp - 9
  (if m ≤ 2 then y + 1 else y, m, d)

/-- The last day of the month containing the given epoch day: the bucket
label of pandas resample with rule M (month end). -/
def monthEnd (z : Int) : Int :=
  let c := civilFromDays z
  daysFromCivil c.1 c.2.1 (daysInMonth c.1 c.2.1)

/-- Numeric value of a list of decimal digit characters. -/
def digitsToNat (cs : List Char) : Nat :=
  cs.foldl (fun a c => a * 10 + (c.toNat - 48)) 0

/-- Parsing an 8-digit YYYYMMDD string to an epoch-day number, the model
of pd.to_datetime(col.astype(str), format=yyyymmdd) on one cell
(src/DataFrameProcessor.py line 25 and line 38).  Malformed input yields
none, which the normalization surfaces as formatError. -/
def parseYYYYMMDD (s : String) : Option Int :=
  let cs := s.toList
  if cs.length = 8 ∧ cs.all Char.isDigit then
    let y : Int := digitsToNat (cs.take 4)
    let m : Int := digitsToNat ((cs.drop 4).take 2)
    let d : Int := digitsToNat (cs.drop 6)
    if 1 ≤ m ∧ m ≤ 12 ∧ 1 ≤ d ∧ d ≤ daysInMonth y m then
      some (daysFromCivil y m d)
    else none
  else none

/-- Python str() of a cell, the model of astype(str): None prints as the
string None (which then fails to parse), an already-normalized Timestamp
prints as a non-digit representation (which also fails to parse). -/
def pyStr (v : Value) : String :=
  match v with
  | Value.null => "None"
  | Value.int n => toString n
  | Value.str s => s
  | Value.date d => "Timestamp " ++ toString d

/-- Date normalization of one row: parse the date cell and overwrite it
with the normalized date, or fail with formatError. -/
def normRow (dc : String) (r : Row) : Except Err Row :=
  match parseYYYYMMDD (pyStr (rget r dc)) with
  | some day => Except.ok (setCol r dc (Value.date day))
  | none => Except.error Err.formatError

/-- Effectful map over a list that stops at the first error, the model of
a pandas column operation that raises on the first malformed cell. -/
def exMap (f : α → Except Err β) : List α → Except Err (List β)
  | [] => Except.ok []
  | a :: as =>
    match f a with
    | Except.error e => Except.error e
    | Except.ok b =>
      match exMap f as with
      | Except.error e => Except.error e
      | Except.ok bs => Except.ok (b :: bs)

/-- The date carried by a cell, if any. -/
def asDate (v : Value) : Option Int :=
  match v with
  | Value.date d => some d
  | _ => none

/-- The dates present in a date column (rows whose cell is not a
normalized date carry no date, mirroring NaT). -/
def rowsDates (rows : List Row) (dc : String) : List Int :=
  rows.filterMap (fun r => asDate (rget r dc))

/-- The integer carried by a cell; non-numeric cells contribute 0 to a
sum, mirroring the skipna behavior of pandas sum. -/
def asIntV (v : Value) : Int :=
  match v with
  | Value.int n => n
  | _ => 0

/-- Minimum of a list of integers, none when empty (NaT of an empty
date column minimum). -/
def listMin : List Int → Option Int
  | [] => none
  | x :: xs =>
    match listMin xs with
    | none => some x
    | some y => some (min x y)

/-- Maximum of a list of integers, none when empty. -/
def listMax : List Int → Option Int
  | [] => none
  | x :: xs =>
    match listMax xs with
    | none => some x
    | some y => some (max x y)

/-- The column name that DataFrame.reset_index gives to the materialized
old index: index, unless a column of that name already exists, in which
case pandas falls back to level_0. -/
def resetIndexName (cols : List String) : String :=
  if "index" ∈ cols then "level_0" else "index"

/-- Construction (src/DataFrameProcessor.py lines 16-29).  The input table
is copied, reset_index materializes the original row labels (modelled as
the default RangeIndex 0..n-1) as a leading column, filter_columns is
computed from the columns of the input argument, the date column is
normalized, the series column is set to the label when withGraph, and the
date bounds are computed.  reset_index raises when even the fallback
column name collides (allow_duplicates=False). -/
def construct (t : PTable) (excl : List String) (dc tg lb g : String) (wg : Bool) :
    Except Err DFP :=
  if resetIndexName t.cols ∈ t.cols then Except.error Err.valueError
  else
    match exMap (normRow dc)
        (t.rows.enum.map (fun p => (resetIndexName t.cols, Value.int (p.1 : Int)) :: p.2)) with
    | Except.error e => Except.error e
    | Except.ok rows2 =>
      let rows3 := if wg then rows2.map (fun r => setCol r g (Value.str lb)) else rows2
      Except.ok
        { target := tg, date_column := dc, label := lb, graph := g, withGraph := wg,
          df := PTable.mk
            (if wg then addColIfNew (resetIndexName t.cols :: t.cols) g
             else resetIndexName t.cols :: t.cols) rows3,
          filter_columns := t.cols.filter (fun c => decide (c ∉ excl)),
          min_date := listMin (rowsDates rows3 dc),
          max_date := listMax (rowsDates rows3 dc) }

/-- The row transformation of reset_df (lines 37-40): copy the new table,
re-normalize the date column, re-apply the series label with the existing
configuration. -/
def resetRows (s : DFP) (t : PTable) : Except Err (List Row) :=
  match exMap (normRow s.date_column) t.rows with
  | Except.error e => Except.error e
  | Except.ok r1 =>
    Except.ok (if s.withGraph then r1.map (fun r => setCol r s.graph (Value.str s.label)) else r1)

/-- reset_df (src/DataFrameProcessor.py lines 31-40): replaces the owned
table wholesale; no other field of the object is touched. -/
def reset_df (s : DFP) (t : PTable) : Except Err DFP :=
  match resetRows s t with
  | Except.error e => Except.error e
  | Except.ok rows =>
    Except.ok { s with
      df := PTable.mk (if s.withGraph then addColIfNew t.cols s.graph else t.cols) rows }

/-- The index at which a Python slice endpoint lands on a sequence of
length n: nonnegative positions are clamped to n, negative positions
count from the end and are clamped to 0.  Python slicing never raises. -/
def sliceIdx (n : Nat) (pos : Int) : Nat :=
  if 0 ≤ pos then min pos.toNat n else n - (-pos).toNat

/-- A record with every column set to the null sentinel (line 45). -/
def emptyRow (cols : List String) : Row :=
  cols.map (fun c => (c, Value.null))

/-- insert_empty_row_at_pos (src/DataFrameProcessor.py lines 43-51):
concat of iloc[:pos], the one-row empty frame, and iloc[pos:].  Since
iloc slicing clamps out-of-range endpoints, the operation is total. -/
def insert_empty_row_at_pos (s : DFP) (pos : Int) : DFP :=
  { s with df := (PTable.mk s.df.cols
      (s.df.rows.take (sliceIdx s.df.rows.length pos) ++
        emptyRow s.df.cols :: s.df.rows.drop (sliceIdx s.df.rows.length pos))) }

/-- The skip test of line 70: val not in [None, the empty string, the
empty list].  Entries whose value fails this test impose no constraint. -/
def keepVal (v : FilterVal) : Bool :=
  match v with
  | FilterVal.scalar Value.null => false
  | FilterVal.scalar (Value.str "") => false
  | FilterVal.coll [] => false
  | _ => true

/-- The mask contribution of one filter entry (lines 70-74): skipped
entries contribute true, list values test membership, scalars equality. -/
def entryCheck (r : Row) (c : String) (v : FilterVal) : Bool :=
  if keepVal v then
    match v with
    | FilterVal.scalar x => decide (rget r c = x)
    | FilterVal.coll xs => decide (rget r c ∈ xs)
  else true

/-- The accumulated boolean mask of lines 68-74 evaluated at one row. -/
def rowPass (filters : List (String × FilterVal)) (r : Row) : Bool :=
  filters.foldl (fun acc cv => acc && entryCheck r cv.1 cv.2) true

/-- filter_by_specified_columns (src/DataFrameProcessor.py lines 61-81):
the rows surviving the conjoined mask, in their original order. -/
def filter_by_specified_columns (t : PTable) (filters : List (String × FilterVal)) : PTable :=
  PTable.mk t.cols (t.rows.filter (rowPass filters))

/-- Sorted insertion of a key, keeping one copy of each key: the order
pandas groupby (sort=True) gives its group keys. -/
def insertKey (x : Int) : List Int → List Int
  | [] => [x]
  | y :: ys => if x < y then x :: y :: ys else if x = y then y :: ys else y :: insertKey x ys

/-- The distinct values of a list, in ascending order. -/
def sortedKeys (l : List Int) : List Int :=
  l.foldr insertKey []

/-- The group keys of aggregate: the distinct dates of the date column,
ascending (groupby sorts keys; rows without a date form no group). -/
def aggKeys (s : DFP) : List Int :=
  sortedKeys (rowsDates s.df.rows s.date_column)

/-- The target sum of one group of aggregate: all rows whose date cell
equals the group date. -/
def aggSum (s : DFP) (d : Int) : Int :=
  ((s.df.rows.filter (fun r => decide (rget r s.date_column = Value.date d))).map
    (fun r => asIntV (rget r s.target))).sum

/-- One output row of aggregate: the group date, the summed target, and
the series column overwritten with the target name (line 92). -/
def aggRow (s : DFP) (d : Int) : Row :=
  setCol [(s.date_column, Value.date d), (s.target, Value.int (aggSum s d))]
    s.graph (Value.str s.target)

/-- The schema of the aggregate output: date column, target, series. -/
def aggCols (s : DFP) : List String :=
  addColIfNew (addColIfNew [s.date_column] s.target) s.graph

/-- aggregate (src/DataFrameProcessor.py lines 83-97): one row per
distinct date of the date column, ascending, summing the target. -/
def aggregate_data (s : DFP) : PTable :=
  PTable.mk (aggCols s) ((aggKeys s).map (aggRow s))

/-- The three bucket granularities of aggregate_by_timespan. -/
inductive Gran where
  | monthly : Gran
  | weekly : Gran
  | daily : Gran
deriving DecidableEq, Repr

/-- The granularity selection of aggregate_by_timespan
(src/DataFrameProcessor.py lines 110-117): days = (end - start).days,
monthly above 365, weekly above 90, daily otherwise. -/
def timespanGranularity (startDay endDay : Int) : Gran :=
  if endDay - startDay > 365 then Gran.monthly
  else if endDay - startDay > 90 then Gran.weekly
  else Gran.daily

/-- The bucket label a date falls into: resample rule D labels each day
by itself, rule W by the next Sunday on or after it (epoch day 0 is a
Thursday, so Sundays are the days congruent to 3 modulo 7), rule M by
the end of its month. -/
def bucketKey (g : Gran) (d : Int) : Int :=
  match g with
  | Gran.daily => d
  | Gran.weekly => d + (3 - d) % 7
  | Gran.monthly => monthEnd d

/-- The bucket labels of resample: every bucket met by a day between the
first and the last date of the column, empty buckets included (resample
zero-fills gaps), ascending. -/
def resampleKeys (s : DFP) (g : Gran) : List Int :=
  match listMin (rowsDates s.df.rows s.date_column),
      listMax (rowsDates s.df.rows s.date_column) with
  | some lo, some hi =>
    sortedKeys ((List.range (hi - lo + 1).toNat).map (fun i => bucketKey g (lo + i)))
  | _, _ => []

/-- The target sum of one bucket. -/
def bucketSum (s : DFP) (g : Gran) (k : Int) : Int :=
  ((s.df.rows.filter
      (fun r => decide ((asDate (rget r s.date_column)).map (bucketKey g) = some k))).map
    (fun r => asIntV (rget r s.target))).sum

/-- One output row of aggregate_by_timespan: bucket label, bucket sum,
and the series column overwritten with the target name (line 119). -/
def resampleRow (s : DFP) (g : Gran) (k : Int) : Row :=
  setCol [(s.date_column, Value.date k), (s.target, Value.int (bucketSum s g k))]
    s.graph (Value.str s.target)

/-- The resampled table of aggregate_by_timespan for a granularity. -/
def resampleTable (s : DFP) (g : Gran) : PTable :=
  PTable.mk (aggCols s) ((resampleKeys s g).map (resampleRow s g))

/-- aggregate_by_timespan (src/DataFrameProcessor.py lines 99-123): pick
the granularity from the requested span, then resample. -/
def aggregate_by_timespan_data (s : DFP) (startDay endDay : Int) : PTable :=
  resampleTable s (timespanGranularity startDay endDay)

/-- The trailing window selected by add_prediction (line 140): the last
lastN rows whose series cell equals the target name. -/
def predSelection (s : DFP) (lastN : Nat) : List Row :=
  takeLast lastN (s.df.rows.filter (fun r => decide (rget r s.graph = Value.str s.target)))

/-- The table built by a successful add_prediction (lines 140-145): the
selected window with the target column overwritten by the predicted
values and the series column relabelled, appended to the full table. -/
def predData (s : DFP) (lb : String) (lastN : Nat) (predict : List Row → List Value) : PTable :=
  PTable.mk (addColIfNew (addColIfNew s.df.cols s.target) s.graph)
    (s.df.rows ++
      ((List.zipWith (fun r v => setCol r s.target v) (predSelection s lastN)
          (predict (predSelection s lastN))).map
        (fun r => setCol r s.graph (Value.str lb))))

/-- add_prediction (src/DataFrameProcessor.py lines 125-150), modelled as
the final object state paired with the outcome.  Without withGraph the
call returns the owned table untouched (lines 137-138).  Assigning a
predicted sequence whose length is not the length of the selected window
raises (modelled contractError) before the object is ever mutated; only
the final inplace assignment of line 148 changes the state. -/
def add_prediction_run (s : DFP) (lb : String) (lastN : Nat)
    (predict : List Row → List Value) (inplace : Bool) :
    DFP × Except Err (Option PTable) :=
  if s.withGraph then
    if (predict (predSelection s lastN)).length = (predSelection s lastN).length then
      (if inplace then ({ s with df := predData s lb lastN predict }, Except.ok none)
       else (s, Except.ok (some (predData s lb lastN predict))))
    else (s, Except.error Err.contractError)
  else (s, Except.ok (some s.df))

/-- The granularity policy as the claim words it: thresholds applied to
the inclusive span length in days between the two dates, which for a
span from startDay to endDay is endDay - startDay + 1 days.  This
definition follows the wording of the specification and exists to be
compared against timespanGranularity, which is translated from the
code. -/
def specGranularity (startDay endDay : Int) : Gran :=
  if endDay - startDay + 1 > 365 then Gran.monthly
  else if endDay - startDay + 1 > 90 then Gran.weekly
  else Gran.daily

/-- A one-row table used to exercise the filter engine. -/
def sampleT : PTable :=
  PTable.mk ["d", "v"]
    [[("d", Value.date 0), ("v", Value.int 5)],
     [("d", Value.date 1), ("v", Value.int 7)]]

/-- The container state of the aggregation example of the specification:
rows (d1, 5), (d1, 3), (d2, 2). -/
def p3State : DFP :=
  { target := "v", date_column := "d", label := "actual", graph := "g", withGraph := true,
    df := PTable.mk ["d", "v", "g"]
      [[("d", Value.date 0), ("v", Value.int 5), ("g", Value.str "actual")],
       [("d", Value.date 0), ("v", Value.int 3), ("g", Value.str "actual")],
       [("d", Value.date 1), ("v", Value.int 2), ("g", Value.str "actual")]],
    filter_columns := ["d", "v"], min_date := some 0, max_date := some 1 }

/-- The first output row of aggregating p3State. -/
def c10row : Row :=
  [("d", Value.date 0), ("v", Value.int 8), ("g", Value.str "v")]

/-- A two-row container used for the insertion claim. -/
def s3cex : DFP :=
  { target := "v", date_column := "d", label := "actual", graph := "g", withGraph := true,
    df := PTable.mk ["d", "v"]
      [[("d", Value.date 0), ("v", Value.int 1)],
       [("d", Value.date 1), ("v", Value.int 2)]],
    filter_columns := ["d", "v"], min_date := some 0, max_date := some 1 }

/-- A container holding one aggregated row (series cell equal to the
target name), used for the prediction-contract claim. -/
def c2State : DFP :=
  { target := "v", date_column := "d", label := "actual", graph := "g", withGraph := true,
    df := PTable.mk ["d", "v", "g"]
      [[("d", Value.date 0), ("v", Value.int 5), ("g", Value.str "v")]],
    filter_columns := ["d", "v"], min_date := some 0, max_date := some 0 }

/-- A container configured without the series dimension. -/
def c8State : DFP :=
  { target := "v", date_column := "d", label := "actual", graph := "g", withGraph := false,
    df := PTable.mk ["d", "v"]
      [[("d", Value.date 0), ("v", Value.int 5)]],
    filter_columns := ["d", "v"], min_date := some 0, max_date := some 0 }

/-- Fallback state used only to destructure Except results. -/
def dummyDFP : DFP :=
  { target := "", date_column := "", label := "", graph := "", withGraph := false,
    df := PTable.mk [] [], filter_columns := [], min_date := none, max_date := none }

/-- An input table whose columns already contain the name index. -/
def c9bad : PTable :=
  PTable.mk ["index", "d"]
    [[("index", Value.int 7), ("d", Value.str "20230101")]]

/-- The state constructed from c9bad. -/
def c9badRes : DFP :=
  match construct c9bad [] "d" "v" "actual" "g" true with
  | Except.ok s => s
  | Except.error _ => dummyDFP

/-- A well-formed raw input table. -/
def c9good : PTable :=
  PTable.mk ["d", "v"]
    [[("d", Value.str "20230101"), ("v", Value.int 5)]]

/-- The state constructed from c9good, excluding column v from filters. -/
def c9goodRes : DFP :=
  match construct c9good ["v"] "d" "v" "actual" "g" true with
  | Except.ok s => s
  | Except.error _ => dummyDFP

/-- The state obtained by resetting c2State with sampleTRaw. -/
def sampleTRaw : PTable :=
  PTable.mk ["d", "v"]
    [[("d", Value.str "20230102"), ("v", Value.int 9)]]

/-- The state after resetting c2State with the raw table sampleTRaw. -/
def c7res : DFP :=
  match reset_df c2State sampleTRaw with
  | Except.ok s => s
  | Except.error _ => dummyDFP


theorem rget_replace_self (r : Row) (c : String) (v : Value) (h : hasCol r c = true) :
    rget (r.map (fun p => if p.1 = c then (c, v) else p)) c = v := by
  induction r with
  | nil => simp [hasCol] at h
  | cons p ps ih =>
    by_cases hp : p.1 = c
    · simp [rget, hp]
    · simp only [List.map_cons, if_neg hp]
      rw [rget, if_neg hp]
      exact ih (by simpa [hasCol, hp] using h)

theorem rget_append_of_not (r l : Row) (c : String) (h : hasCol r c = false) :
    rget (r ++ l) c = rget l c := by
  induction r with
  | nil => simp
  | cons p ps ih =>
    have hp : p.1 ≠ c := by
      intro he
      simp [hasCol, he] at h
    rw [List.cons_append, rget, if_neg hp]
    exact ih (by simpa [hasCol, hp] using h)

theorem rget_setCol_self (r : Row) (c : String) (v : Value) :
    rget (setCol r c v) c = v := by
  unfold setCol
  by_cases h : hasCol r c = true
  · rw [if_pos h]
    exact rget_replace_self r c v h
  · rw [if_neg h]
    rw [rget_append_of_not r _ c (by simpa using h)]
    simp [rget]

theorem rget_replace_ne (r : Row) (c c2 : String) (v : Value) (h : c2 ≠ c) :
    rget (r.map (fun p => if p.1 = c then (c, v) else p)) c2 = rget r c2 := by
  induction r with
  | nil => rfl
  | cons p ps ih =>
    by_cases hp : p.1 = c
    · have h1 : c ≠ c2 := fun he => h he.symm
      have h2 : p.1 ≠ c2 := by rw [hp]; exact h1
      simp only [List.map_cons, if_pos hp]
      rw [rget, rget, if_neg h1, if_neg h2]
      exact ih
    · simp only [List.map_cons, if_neg hp]
      by_cases hq : p.1 = c2
      · rw [rget, rget, if_pos hq, if_pos hq]
      · rw [rget, rget, if_neg hq, if_neg hq]
        exact ih

theorem rget_setCol_ne (r : Row) (c c2 : String) (v : Value) (h : c2 ≠ c) :
    rget (setCol r c v) c2 = rget r c2 := by
  unfold setCol
  by_cases hc : hasCol r c = true
  · rw [if_pos hc]
    exact rget_replace_ne r c c2 v h
  · rw [if_neg hc]
    clear hc
    induction r with
    | nil =>
      rw [List.nil_append, rget, rget, if_neg (fun he => h he.symm)]
      rfl
    | cons p ps ih =>
      by_cases hq : p.1 = c2
      · rw [List.cons_append, rget, rget, if_pos hq, if_pos hq]
      · rw [List.cons_append, rget, rget, if_neg hq, if_neg hq]
        exact ih

theorem foldl_and_entry (r : Row) (l : List (String × FilterVal)) (b : Bool) :
    l.foldl (fun acc cv => acc && entryCheck r cv.1 cv.2) b = (b && rowPass l r) := by
  induction l generalizing b with
  | nil => simp [rowPass]
  | cons x xs ih =>
    simp only [rowPass, List.foldl_cons] at ih ⊢
    rw [ih (b && entryCheck r x.1 x.2), ih (true && entryCheck r x.1 x.2)]
    cases b <;> cases entryCheck r x.1 x.2 <;> simp

theorem rowPass_cons (r : Row) (x : String × FilterVal) (xs : List (String × FilterVal)) :
    rowPass (x :: xs) r = (entryCheck r x.1 x.2 && rowPass xs r) := by
  rw [rowPass, List.foldl_cons, foldl_and_entry]
  cases entryCheck r x.1 x.2 <;> simp

theorem rowPass_append (l1 l2 : List (String × FilterVal)) (r : Row) :
    rowPass (l1 ++ l2) r = (rowPass l1 r && rowPass l2 r) := by
  induction l1 with
  | nil => simp [rowPass]
  | cons x xs ih =>
    rw [List.cons_append, rowPass_cons, rowPass_cons, ih, Bool.and_assoc]

theorem length_filter_imp (p q : α → Bool) (l : List α)
    (h : ∀ a, p a = true → q a = true) :
    (l.filter p).length ≤ (l.filter q).length := by
  induction l with
  | nil => simp
  | cons a l ih =>
    simp only [List.filter_cons]
    by_cases hp : p a = true
    · rw [if_pos hp, if_pos (h a hp)]
      simpa using ih
    · rw [if_neg hp]
      by_cases hq : q a = true
      · rw [if_pos hq]
        exact le_trans ih (Nat.le_succ _)
      · rw [if_neg hq]
        exact ih

theorem mem_insertKey (x a : Int) (l : List Int) :
    a ∈ insertKey x l ↔ a = x ∨ a ∈ l := by
  induction l with
  | nil => simp [insertKey]
  | cons y ys ih =>
    by_cases h1 : x < y
    · simp [insertKey, h1]
    · by_cases h2 : x = y
      · simp only [insertKey]
        rw [if_neg h1, if_pos h2]
        subst h2
        simp only [List.mem_cons]
        tauto
      · simp only [insertKey, if_neg h1, if_neg h2, List.mem_cons, ih]
        tauto

theorem sorted_insertKey (x : Int) (l : List Int) (h : List.Sorted (fun a b => a < b) l) :
    List.Sorted (fun a b => a < b) (insertKey x l) := by
  induction l with
  | nil => simp [insertKey]
  | cons y ys ih =>
    rw [List.sorted_cons] at h
    by_cases h1 : x < y
    · simp only [insertKey, if_pos h1]
      rw [List.sorted_cons]
      constructor
      · intro b hb
        rcases List.mem_cons.mp hb with rfl | hb
        · exact h1
        · exact lt_trans h1 (h.1 b hb)
      · rw [List.sorted_cons]
        exact h
    · by_cases h2 : x = y
      · simp only [insertKey, if_neg h1, if_pos h2]
        rw [List.sorted_cons]
        exact h
      · simp only [insertKey, if_neg h1, if_neg h2]
        rw [List.sorted_cons]
        constructor
        · intro b hb
          rcases (mem_insertKey x b ys).mp hb with rfl | hb
          · omega
          · exact h.1 b hb
        · exact ih h.2

theorem sortedKeys_cons (x : Int) (xs : List Int) :
    sortedKeys (x :: xs) = insertKey x (sortedKeys xs) := rfl

theorem mem_sortedKeys (l : List Int) (a : Int) : a ∈ sortedKeys l ↔ a ∈ l := by
  induction l with
  | nil => simp [sortedKeys]
  | cons x xs ih =>
    rw [sortedKeys_cons, mem_insertKey, ih, List.mem_cons]

theorem sorted_sortedKeys (l : List Int) :
    List.Sorted (fun a b => a < b) (sortedKeys l) := by
  induction l with
  | nil => simp [sortedKeys]
  | cons x xs ih =>
    rw [sortedKeys_cons]
    exact sorted_insertKey x _ ih

theorem asDate_eq_some (v : Value) (d : Int) : asDate v = some d ↔ v = Value.date d := by
  cases v <;> simp [asDate]

theorem normRow_rget_ne (dc c : String) (r r2 : Row)
    (h : normRow dc r = Except.ok r2) (hne : c ≠ dc) :
    rget r2 c = rget r c := by
  unfold normRow at h
  cases hp : parseYYYYMMDD (pyStr (rget r dc)) with
  | none =>
    rw [hp] at h
    simp at h
  | some day =>
    rw [hp] at h
    simp only [Except.ok.injEq] at h
    subst h
    exact rget_setCol_ne r dc c (Value.date day) hne

theorem exMap_normRow_rget (dc c : String) (hne : c ≠ dc) (l l2 : List Row)
    (h : exMap (normRow dc) l = Except.ok l2) :
    l2.map (fun r => rget r c) = l.map (fun r => rget r c) := by
  induction l generalizing l2 with
  | nil =>
    simp only [exMap, Except.ok.injEq] at h
    subst h
    rfl
  | cons a as ih =>
    simp only [exMap] at h
    cases ha : normRow dc a with
    | error e =>
      rw [ha] at h
      simp at h
    | ok b =>
      rw [ha] at h
      cases has : exMap (normRow dc) as with
      | error e =>
        rw [has] at h
        simp at h
      | ok bs =>
        rw [has] at h
        simp only [Except.ok.injEq] at h
        subst h
        simp only [List.map_cons]
        rw [normRow_rget_ne dc c a b ha hne, ih bs has]

theorem sliceIdx_le (n : Nat) (pos : Int) : sliceIdx n pos ≤ n := by
  unfold sliceIdx
  split
  · exact Nat.min_le_right _ _
  · exact Nat.sub_le _ _

theorem addColIfNew_cons_ne (cols : List String) (a c : String) (h : c ≠ a) :
    addColIfNew (a :: cols) c = a :: addColIfNew cols c := by
  unfold addColIfNew
  by_cases hm : c ∈ cols
  · simp [hm, h]
  · simp [hm, h]

/-- C1 counterexample: the claim measures the span inclusively, so the
query from day 0 to day 365 spans 366 days and the claim (mirrored by
specGranularity) selects monthly buckets; the code computes the day
difference (end - start).days = 365, which is not above 365, and selects
weekly buckets. -/
theorem C1_counterexample :
    ((365 : Int) - 0 + 1 = 366 ∧ (366 : Int) > 365)
    ∧ specGranularity 0 365 = Gran.monthly
    ∧ timespanGranularity 0 365 = Gran.weekly := by
  decide

/-- C1 (amended): aggregate_by_timespan chooses its granularity from the
day difference endDate - startDate (the exclusive span): above 365 days
monthly, above 90 and at most 365 weekly, at most 90 daily; a query
whose difference is exactly 366 days uses monthly, 365 weekly, 91
weekly, 90 daily. -/
theorem C1_amended_granularity (a b : Int) :
    (b - a > 365 → timespanGranularity a b = Gran.monthly)
    ∧ (90 < b - a ∧ b - a ≤ 365 → timespanGranularity a b = Gran.weekly)
    ∧ (b - a ≤ 90 → timespanGranularity a b = Gran.daily)
    ∧ (∀ s : DFP, aggregate_by_timespan_data s a b = resampleTable s (timespanGranularity a b))
    ∧ timespanGranularity 0 366 = Gran.monthly
    ∧ timespanGranularity 0 365 = Gran.weekly
    ∧ timespanGranularity 0 91 = Gran.weekly
    ∧ timespanGranularity 0 90 = Gran.daily := by
  refine ⟨?_, ?_, ?_, fun s => rfl, by decide, by decide, by decide, by decide⟩
  · intro h
    unfold timespanGranularity
    rw [if_pos h]
  · intro h
    unfold timespanGranularity
    rw [if_neg (by omega), if_pos (by omega)]
  · intro h
    unfold timespanGranularity
    rw [if_neg (by omega), if_neg (by omega)]

/-- C1 witness: the amended thresholds evaluated at a concrete span. -/
theorem C1_amended_granularity_witness :
    timespanGranularity 0 400 = Gran.monthly ∧ timespanGranularity 100 195 = Gran.weekly :=
  ⟨(C1_amended_granularity 0 400).1 (by decide),
   (C1_amended_granularity 100 195).2.1 (by decide)⟩

/-- C2: with withGraph configured, a predicted sequence whose length
differs from the selected trailing window fails with the contract error
and, for inplace = true, leaves the container state (hence its owned
table) exactly as it was: the final state returned is the input state. -/
theorem C2_contract_error (s : DFP) (lb : String) (lastN : Nat)
    (predict : List Row → List Value)
    (hw : s.withGraph = true)
    (hlen : (predict (predSelection s lastN)).length ≠ (predSelection s lastN).length) :
    add_prediction_run s lb lastN predict true = (s, Except.error Err.contractError) := by
  unfold add_prediction_run
  rw [hw]
  rw [if_pos rfl, if_neg hlen]

/-- C2 witness: a one-row selection with an empty predicted sequence. -/
theorem C2_contract_error_witness :
    add_prediction_run c2State "p" 1 (fun _ => []) true
      = (c2State, Except.error Err.contractError) :=
  C2_contract_error c2State "p" 1 (fun _ => []) rfl (by decide)

/-- C8: without withGraph, add_prediction returns the owned table
untouched for every label, window size, prediction function and inplace
flag, and the container state is unchanged. -/
theorem C8_no_graph_noop (s : DFP) (lb : String) (lastN : Nat)
    (predict : List Row → List Value) (inplace : Bool)
    (hw : s.withGraph = false) :
    add_prediction_run s lb lastN predict inplace = (s, Except.ok (some s.df)) := by
  unfold add_prediction_run
  rw [hw]
  rw [if_neg (by simp)]

/-- C8 witness: the no-graph container is returned untouched. -/
theorem C8_no_graph_noop_witness :
    add_prediction_run c8State "p" 2 (fun _ => [Value.int 1]) true
      = (c8State, Except.ok (some c8State.df)) :=
  C8_no_graph_noop c8State "p" 2 (fun _ => [Value.int 1]) true rfl

/-- C6: predicates conjoin, so appending one more entry to a filter map
never increases the number of surviving rows. -/
theorem C6_filter_monotone (t : PTable) (filters : List (String × FilterVal))
    (c : String) (v : FilterVal) :
    ((filter_by_specified_columns t (filters ++ [(c, v)])).rows).length
      ≤ ((filter_by_specified_columns t filters).rows).length := by
  unfold filter_by_specified_columns
  apply length_filter_imp
  intro r hr
  rw [rowPass_append] at hr
  exact ((Bool.and_eq_true _ _).mp hr).1

/-- C3 counterexample: position 5 lies outside [0, rowCount] of the
two-row table, yet insert_empty_row_at_pos raises nothing and mutates
the owned table, appending the empty record at the end (Python slicing
clamps out-of-range endpoints, so the translated operation is total and
has no error path at all). -/
theorem C3_counterexample :
    ((5 : Int) > (s3cex.df.rows.length : Int))
    ∧ (insert_empty_row_at_pos s3cex 5).df.rows
        = s3cex.df.rows ++ [emptyRow s3cex.df.cols]
    ∧ (insert_empty_row_at_pos s3cex 5).df ≠ s3cex.df := by
  decide

/-- C3 (amended): insert_empty_row_at_pos never fails; a position inside
[0, rowCount] inserts one all-null record there, shifting later rows; a
position above rowCount is clamped and appends at the end (negative
positions likewise follow Python slice clamping); the schema is
unchanged and the row count always grows by one. -/
theorem C3_amended_insert (s : DFP) (pos : Int) :
    (0 ≤ pos → pos ≤ (s.df.rows.length : Int) →
      (insert_empty_row_at_pos s pos).df.rows
        = s.df.rows.take pos.toNat ++ emptyRow s.df.cols :: s.df.rows.drop pos.toNat)
    ∧ ((s.df.rows.length : Int) < pos →
      (insert_empty_row_at_pos s pos).df.rows = s.df.rows ++ [emptyRow s.df.cols])
    ∧ (insert_empty_row_at_pos s pos).df.cols = s.df.cols
    ∧ (insert_empty_row_at_pos s pos).df.rows.length = s.df.rows.length + 1 := by
  refine ⟨?_, ?_, rfl, ?_⟩
  · intro h0 hle
    have hi : sliceIdx s.df.rows.length pos = pos.toNat := by
      unfold sliceIdx
      rw [if_pos h0]
      exact Nat.min_eq_left (by omega)
    show s.df.rows.take (sliceIdx s.df.rows.length pos) ++
        emptyRow s.df.cols :: s.df.rows.drop (sliceIdx s.df.rows.length pos)
      = s.df.rows.take pos.toNat ++ emptyRow s.df.cols :: s.df.rows.drop pos.toNat
    rw [hi]
  · intro hgt
    have hi : sliceIdx s.df.rows.length pos = s.df.rows.length := by
      unfold sliceIdx
      rw [if_pos (by omega)]
      exact Nat.min_eq_right (by omega)
    show s.df.rows.take (sliceIdx s.df.rows.length pos) ++
        emptyRow s.df.cols :: s.df.rows.drop (sliceIdx s.df.rows.length pos)
      = s.df.rows ++ [emptyRow s.df.cols]
    rw [hi, List.take_length, List.drop_length]
  · have hb := sliceIdx_le s.df.rows.length pos
    show (s.df.rows.take (sliceIdx s.df.rows.length pos) ++
        emptyRow s.df.cols :: s.df.rows.drop (sliceIdx s.df.rows.length pos)).length
      = s.df.rows.length + 1
    rw [List.length_append, List.length_cons, List.length_take, List.length_drop,
      Nat.min_eq_left hb]
    omega

/-- C3 witness: inserting at position 1 of the two-row table. -/
theorem C3_amended_insert_witness :
    (insert_empty_row_at_pos s3cex 1).df.rows
      = s3cex.df.rows.take (Int.toNat 1) ++ emptyRow s3cex.df.cols :: s3cex.df.rows.drop (Int.toNat 1)
    ∧ (insert_empty_row_at_pos s3cex 1).df.rows.length = s3cex.df.rows.length + 1 :=
  ⟨(C3_amended_insert s3cex 1).1 (by decide) (by decide),
   (C3_amended_insert s3cex 1).2.2.2⟩

/-- C5: a filter entry whose value is null, the empty string, or the
empty list imposes no constraint: the result equals the result with that
entry omitted (in particular it never excludes everything); kept scalar
entries filter by exact equality and kept list entries by membership. -/
theorem C5_filter_skip (t : PTable) (l1 l2 : List (String × FilterVal))
    (c : String) (v : FilterVal) (hv : keepVal v = false) :
    filter_by_specified_columns t (l1 ++ (c, v) :: l2)
      = filter_by_specified_columns t (l1 ++ l2)
    ∧ (∀ (c2 : String) (x : Value), keepVal (FilterVal.scalar x) = true →
        (filter_by_specified_columns t [(c2, FilterVal.scalar x)]).rows
          = t.rows.filter (fun r => decide (rget r c2 = x)))
    ∧ (∀ (c2 : String) (xs : List Value), xs ≠ [] →
        (filter_by_specified_columns t [(c2, FilterVal.coll xs)]).rows
          = t.rows.filter (fun r => decide (rget r c2 ∈ xs))) := by
  have he : entryCheck = fun (r : Row) (c2 : String) (v2 : FilterVal) => entryCheck r c2 v2 := rfl
  refine ⟨?_, ?_, ?_⟩
  · unfold filter_by_specified_columns
    congr 1
    apply List.filter_congr
    intro r hr
    have hone : entryCheck r c v = true := by
      unfold entryCheck
      rw [hv]
      rfl
    rw [show (c, v) :: l2 = [(c, v)] ++ l2 from rfl, rowPass_append, rowPass_append,
      rowPass_append, rowPass_cons]
    rw [hone]
    simp [rowPass]
  · intro c2 x hx
    show t.rows.filter (rowPass [(c2, FilterVal.scalar x)])
      = t.rows.filter (fun r => decide (rget r c2 = x))
    apply List.filter_congr
    intro r hr
    rw [rowPass_cons]
    simp only [rowPass, List.foldl_nil, Bool.and_true]
    show entryCheck r c2 (FilterVal.scalar x) = decide (rget r c2 = x)
    unfold entryCheck
    rw [if_pos hx]
  · intro c2 xs hxs
    have hx : keepVal (FilterVal.coll xs) = true := by
      cases xs with
      | nil => exact absurd rfl hxs
      | cons y ys => rfl
    show t.rows.filter (rowPass [(c2, FilterVal.coll xs)])
      = t.rows.filter (fun r => decide (rget r c2 ∈ xs))
    apply List.filter_congr
    intro r hr
    rw [rowPass_cons]
    simp only [rowPass, List.foldl_nil, Bool.and_true]
    show entryCheck r c2 (FilterVal.coll xs) = decide (rget r c2 ∈ xs)
    unfold entryCheck
    rw [if_pos hx]

/-- C5 witness: skipping a null entry and keeping a scalar entry on the
two-row sample table. -/
theorem C5_filter_skip_witness :
    filter_by_specified_columns sampleT [("d", FilterVal.scalar Value.null)]
      = filter_by_specified_columns sampleT []
    ∧ (filter_by_specified_columns sampleT [("v", FilterVal.scalar (Value.int 5))]).rows
      = sampleT.rows.filter (fun r => decide (rget r "v" = Value.int 5)) :=
  ⟨(C5_filter_skip sampleT [] [] "d" (FilterVal.scalar Value.null) rfl).1,
   (C5_filter_skip sampleT [] [] "d" (FilterVal.scalar Value.null) rfl).2.1 "v" (Value.int 5) rfl⟩

/-- C7: a successful reset_df replaces the owned table with the
re-normalized, re-labelled copy of the new table (resetRows, which uses
only the existing configuration), and leaves filter_columns, min_date,
max_date and the whole configuration exactly as they were. -/
theorem C7_reset_frame (s : DFP) (t : PTable) (s2 : DFP)
    (h : reset_df s t = Except.ok s2) :
    s2.filter_columns = s.filter_columns
    ∧ s2.min_date = s.min_date
    ∧ s2.max_date = s.max_date
    ∧ s2.target = s.target
    ∧ s2.label = s.label
    ∧ s2.date_column = s.date_column
    ∧ s2.graph = s.graph
    ∧ s2.withGraph = s.withGraph
    ∧ resetRows s t = Except.ok s2.df.rows
    ∧ s2.df.cols = (if s.withGraph then addColIfNew t.cols s.graph else t.cols) := by
  unfold reset_df at h
  cases hr : resetRows s t with
  | error e =>
    rw [hr] at h
    simp at h
  | ok rows =>
    rw [hr] at h
    simp only [Except.ok.injEq] at h
    subst h
    exact ⟨rfl, rfl, rfl, rfl, rfl, rfl, rfl, rfl, rfl, rfl⟩

/-- C7 witness: resetting the sample container with a raw table. -/
theorem C7_reset_frame_witness :
    c7res.filter_columns = c2State.filter_columns
    ∧ c7res.min_date = c2State.min_date
    ∧ c7res.max_date = c2State.max_date
    ∧ resetRows c2State sampleTRaw = Except.ok c7res.df.rows := by
  have h := C7_reset_frame c2State sampleTRaw c7res (by decide)
  exact ⟨h.1, h.2.1, h.2.2.1, h.2.2.2.2.2.2.2.2.1⟩

/-- C10: every output row of aggregate and of aggregate_by_timespan has
its series cell set to the target name, and both outputs are entirely
independent of the withGraph flag (the assignment of lines 92 and 119 is
unconditional), so the labelling also happens with withGraph off. -/
theorem C10_series_label (s : DFP) (a b : Int) (w : Bool) (r : Row) :
    (r ∈ (aggregate_data s).rows → rget r s.graph = Value.str s.target)
    ∧ (r ∈ (aggregate_by_timespan_data s a b).rows → rget r s.graph = Value.str s.target)
    ∧ aggregate_data { s with withGraph := w } = aggregate_data s
    ∧ aggregate_by_timespan_data { s with withGraph := w } a b
        = aggregate_by_timespan_data s a b := by
  refine ⟨?_, ?_, rfl, rfl⟩
  · intro hm
    simp only [aggregate_data] at hm
    rcases List.mem_map.mp hm with ⟨d, hd, hr⟩
    rw [← hr]
    unfold aggRow
    exact rget_setCol_self _ s.graph (Value.str s.target)
  · intro hm
    simp only [aggregate_by_timespan_data, resampleTable] at hm
    rcases List.mem_map.mp hm with ⟨k, hk, hr⟩
    rw [← hr]
    unfold resampleRow
    exact rget_setCol_self _ s.graph (Value.str s.target)

/-- C10 witness: the first output row of aggregating the sample table,
which also appears in the daily resampled output. -/
theorem C10_series_label_witness :
    rget c10row p3State.graph = Value.str p3State.target
    ∧ rget c10row "g" = Value.str "v" :=
  ⟨(C10_series_label p3State 0 0 false c10row).1 (by decide),
   (C10_series_label p3State 0 0 false c10row).2.1 (by decide)⟩

/-- C4: aggregate produces exactly one row per distinct date of the date
column (its key list aggKeys is strictly sorted, and a date appears in it
exactly when some input row carries it), output rows follow ascending
date order with the target cell holding the group sum, and the
specification example (d1, 5), (d1, 3), (d2, 2) yields (d1, 8), (d2, 2)
in ascending order. -/
theorem C4_aggregate_correct (s : DFP)
    (h1 : s.graph ≠ s.date_column) (h2 : s.graph ≠ s.target)
    (h3 : s.date_column ≠ s.target) :
    List.Sorted (fun a b => a < b) (aggKeys s)
    ∧ (∀ d : Int, d ∈ aggKeys s ↔ ∃ r, r ∈ s.df.rows ∧ rget r s.date_column = Value.date d)
    ∧ (aggregate_data s).rows.map (fun r => rget r s.date_column)
        = (aggKeys s).map (fun d => Value.date d)
    ∧ (aggregate_data s).rows.map (fun r => rget r s.target)
        = (aggKeys s).map (fun d => Value.int (aggSum s d))
    ∧ aggregate_data p3State = PTable.mk ["d", "v", "g"]
        [[("d", Value.date 0), ("v", Value.int 8), ("g", Value.str "v")],
         [("d", Value.date 1), ("v", Value.int 2), ("g", Value.str "v")]] := by
  refine ⟨sorted_sortedKeys _, ?_, ?_, ?_, by decide⟩
  · intro d
    unfold aggKeys
    rw [mem_sortedKeys]
    unfold rowsDates
    rw [List.mem_filterMap]
    constructor
    · rintro ⟨r, hr, hd⟩
      exact ⟨r, hr, (asDate_eq_some _ _).mp hd⟩
    · rintro ⟨r, hr, hd⟩
      exact ⟨r, hr, (asDate_eq_some _ _).mpr hd⟩
  · show ((aggKeys s).map (aggRow s)).map (fun r => rget r s.date_column)
      = (aggKeys s).map (fun d => Value.date d)
    rw [List.map_map]
    apply List.map_congr_left
    intro d hd
    show rget (aggRow s d) s.date_column = Value.date d
    unfold aggRow
    rw [rget_setCol_ne _ _ _ _ (fun he => h1 he.symm)]
    simp only [rget]
    simp
  · show ((aggKeys s).map (aggRow s)).map (fun r => rget r s.target)
      = (aggKeys s).map (fun d => Value.int (aggSum s d))
    rw [List.map_map]
    apply List.map_congr_left
    intro d hd
    show rget (aggRow s d) s.target = Value.int (aggSum s d)
    unfold aggRow
    rw [rget_setCol_ne _ _ _ _ (fun he => h2 he.symm)]
    simp only [rget]
    rw [if_neg h3]
    simp

/-- C4 witness: aggKeys is sorted on the sample table and the dates of
its aggregated output follow the key order. -/
theorem C4_aggregate_correct_witness :
    List.Sorted (fun a b => a < b) (aggKeys p3State)
    ∧ (aggregate_data p3State).rows.map (fun r => rget r p3State.date_column)
      = (aggKeys p3State).map (fun d => Value.date d) := by
  have h := C4_aggregate_correct p3State (by decide) (by decide) (by decide)
  exact ⟨h.1, h.2.2.1⟩

theorem mem_addColIfNew (cols : List String) (c a : String) (h : a ∈ cols) :
    a ∈ addColIfNew cols c := by
  unfold addColIfNew
  split
  · exact h
  · exact List.mem_append_left _ h

/-- C9 counterexample: on an input table that already has a column named
index, construction succeeds but reset_index materializes the old row
labels under the fallback name level_0, so no column named index is
added, and the caller column index lands in filter_columns, refuting the
claim that the index column is never a member of filter_columns. -/
theorem C9_counterexample :
    construct c9bad [] "d" "v" "actual" "g" true = Except.ok c9badRes
    ∧ c9badRes.df.cols = ["level_0", "index", "d", "g"]
    ∧ "index" ∈ c9badRes.filter_columns
    ∧ c9badRes.df.rows.map (fun r => rget r "level_0") = [Value.int 0] := by
  decide

/-- C9 (amended): provided the input table has no column named index
(and neither the series column nor the date column is named index),
construction prepends a column named index holding the original row
labels 0..n-1, so the owned column set differs from the input column
set; filter_columns is computed from the input columns alone, and the
added index column is never a member of it. -/
theorem C9_amended_index_column (t : PTable) (excl : List String) (dc tg lb g : String)
    (wg : Bool) (s : DFP)
    (hidx : "index" ∉ t.cols) (hg : g ≠ "index") (hdc : dc ≠ "index")
    (h : construct t excl dc tg lb g wg = Except.ok s) :
    s.df.cols = "index" :: (if wg then addColIfNew t.cols g else t.cols)
    ∧ s.df.cols ≠ t.cols
    ∧ s.filter_columns = t.cols.filter (fun c => decide (c ∉ excl))
    ∧ "index" ∉ s.filter_columns
    ∧ s.df.rows.map (fun r => rget r "index")
        = (List.range t.rows.length).map (fun i : Nat => Value.int (i : Int)) := by
  have hname : resetIndexName t.cols = "index" := by
    unfold resetIndexName
    rw [if_neg hidx]
  unfold construct at h
  rw [hname] at h
  rw [if_neg hidx] at h
  cases hm : exMap (normRow dc)
      (t.rows.enum.map (fun p => ("index", Value.int (p.1 : Int)) :: p.2)) with
  | error e =>
    rw [hm] at h
    simp at h
  | ok rows2 =>
    rw [hm] at h
    simp only [Except.ok.injEq] at h
    subst h
    have hr2 : rows2.map (fun r => rget r "index")
        = (t.rows.enum.map (fun p => ("index", Value.int (p.1 : Int)) :: p.2)).map
            (fun r => rget r "index") :=
      exMap_normRow_rget dc "index" (fun he => hdc he.symm) _ rows2 hm
    have hbase : (t.rows.enum.map (fun p => ("index", Value.int (p.1 : Int)) :: p.2)).map
          (fun r => rget r "index")
        = (List.range t.rows.length).map (fun i : Nat => Value.int (i : Int)) := by
      rw [List.map_map]
      have hstep : ∀ p ∈ t.rows.enum,
          ((fun r => rget r "index") ∘ (fun p : Nat × Row =>
            ("index", Value.int (p.1 : Int)) :: p.2)) p
          = ((fun i : Nat => Value.int (i : Int)) ∘ Prod.fst) p := by
        intro p hp
        show rget (("index", Value.int (p.1 : Int)) :: p.2) "index" = Value.int (p.1 : Int)
        simp only [rget]
        simp
      rw [List.map_congr_left hstep]
      conv_lhs => rw [← List.map_map]
      rw [List.enum_map_fst]
    refine ⟨?_, ?_, rfl, ?_, ?_⟩
    · cases wg with
      | true =>
        show addColIfNew ("index" :: t.cols) g = "index" :: addColIfNew t.cols g
        exact addColIfNew_cons_ne t.cols "index" g hg
      | false => rfl
    · intro he
      apply hidx
      rw [← he]
      cases wg with
      | true =>
        show "index" ∈ addColIfNew ("index" :: t.cols) g
        exact mem_addColIfNew _ _ _ (List.mem_cons_self _ _)
      | false =>
        exact List.mem_cons_self _ _
    · intro hmem
      exact hidx (List.mem_of_mem_filter hmem)
    · cases wg with
      | true =>
        show (rows2.map (fun r => setCol r g (Value.str lb))).map (fun r => rget r "index")
          = (List.range t.rows.length).map (fun i : Nat => Value.int (i : Int))
        rw [List.map_map]
        have hs : ∀ r ∈ rows2,
            ((fun r => rget r "index") ∘ (fun r => setCol r g (Value.str lb))) r
            = (fun r => rget r "index") r := by
          intro r hr
          exact rget_setCol_ne r g "index" (Value.str lb) (fun he => hg he.symm)
        rw [List.map_congr_left hs, hr2, hbase]
      | false =>
        show rows2.map (fun r => rget r "index")
          = (List.range t.rows.length).map (fun i : Nat => Value.int (i : Int))
        rw [hr2, hbase]

/-- C9 witness: constructing from a clean input table, excluding one
column from filtering. -/
theorem C9_amended_index_column_witness :
    c9goodRes.df.cols = "index" :: (if true then addColIfNew ["d", "v"] "g" else ["d", "v"])
    ∧ c9goodRes.filter_columns = ["d", "v"].filter (fun c => decide (c ∉ ["v"]))
    ∧ "index" ∉ c9goodRes.filter_columns
    ∧ c9goodRes.df.rows.map (fun r => rget r "index")
        = (List.range 1).map (fun i : Nat => Value.int (i : Int)) := by
  have h := C9_amended_index_column c9good ["v"] "d" "v" "actual" "g" true c9goodRes
    (by decide) (by decide) (by decide) (by decide)
  exact ⟨h.1, h.2.2.1, h.2.2.2.1, h.2.2.2.2⟩
